import Mathlib

/-!
Shallow embedding of the punch version-bumping tool, centred on the
command-line driver in src/punch/cli.py.  The driver orchestrates the
version model, the pluggable actions, the template replacer, the
per-file updater and the version-control release workflow; the run is
embedded as a pure function from the parsed arguments and an
environment (configuration, version store contents, file contents,
collaborator failure switches) to a trace of observable events plus a
termination outcome.
-/

namespace Punch

/-- Opening brace character as a string, used to build template delimiters. -/
def ob : String := "\x7b"

/-- Closing brace character as a string, used to build template delimiters. -/
def cb : String := "\x7d"

/-- The mustache-like opening delimiter of a template placeholder. -/
def phOpen : String := ob ++ ob

/-- The mustache-like closing delimiter of a template placeholder. -/
def phClose : String := cb ++ cb

/-- The value of one version part: an integer or a plain string. -/
inductive PartValue where
  | int (n : Int)
  | str (s : String)
deriving DecidableEq, Repr

/-- String form of a part value, as printed and as substituted into templates. -/
def PartValue.toStr : PartValue → String
  | .int n => toString n
  | .str s => s

/-- The zero value of a part: 0 for integers, the empty string for strings. -/
def PartValue.zero : PartValue → PartValue
  | .int _ => .int 0
  | .str _ => .str ""

/-- One named version part. -/
structure VersionPart where
  name : String
  value : PartValue
deriving DecidableEq, Repr

/-- An ordered collection of named version parts. -/
structure Version where
  values : List VersionPart
deriving DecidableEq, Repr

/-- Projection of a version to an ordered name-to-string mapping, used for rendering. -/
def Version.as_dict (v : Version) : List (String × String) :=
  v.values.map (fun p => (p.name, p.value.toStr))

/-- Modelled from the spec: Version.copy (punch/version.py is not in src/) is a
deep value copy that preserves the declared part order. -/
def Version.copy (v : Version) : Version :=
  ⟨v.values.map (fun p => ⟨p.name, p.value⟩)⟩

/-- Modelled from the spec: Version.from_file (punch/version.py is not in src/)
reads one persisted value per declared part from the version store and fails
with a parse error when a declared part is missing from the store. -/
def Version.from_file (store : List (String × PartValue)) (declared : List String) :
    Except String Version := do
  let parts ← declared.mapM (fun n =>
    match List.lookup n store with
    | some v => Except.ok ({ name := n, value := v } : VersionPart)
    | none => Except.error ("The part " ++ n ++ " is missing from the version file"))
  Except.ok ⟨parts⟩

/-- Removal of a leading occurrence of sep: the remaining characters when the
first argument is a character-list prefix of the second. -/
def dropPrefixChars : List Char → List Char → Option (List Char)
  | [], rest => some rest
  | _ :: _, [] => none
  | p :: ps, c :: cs => if c = p then dropPrefixChars ps cs else none

/-- Fuelled splitting of a character list at every occurrence of sep. -/
def splitCharsFuel (sep : List Char) : Nat → List Char → List Char → List (List Char)
  | 0, s, acc => [acc.reverse ++ s]
  | _ + 1, [], acc => [acc.reverse]
  | fuel + 1, c :: cs, acc =>
      match dropPrefixChars sep (c :: cs) with
      | some rest => acc.reverse :: splitCharsFuel sep fuel rest []
      | none => splitCharsFuel sep fuel cs (c :: acc)

/-- Splitting of a string at every occurrence of a non-empty separator,
matching the semantics of the split used by the original code. -/
def splitOnStr (s sep : String) : List String :=
  if sep = "" then [s]
  else (splitCharsFuel sep.data (s.data.length + 1) s.data []).map
    (fun l => String.mk l)

/-- Whitespace trimming over the character list of a string. -/
def trimStr (s : String) : String :=
  String.mk (((s.data.dropWhile Char.isWhitespace).reverse.dropWhile
    Char.isWhitespace).reverse)

/-- Accumulator loop reading a decimal digit list. -/
def digitsToNatAux : List Char → Nat → Option Nat
  | [], acc => some acc
  | c :: cs, acc =>
      if c.isDigit then digitsToNatAux cs (acc * 10 + (c.toNat - 48)) else none

/-- Parse of an optionally negated decimal integer literal. -/
def strToInt? (s : String) : Option Int :=
  match s.data with
  | [] => none
  | '-' :: rest =>
      match rest with
      | [] => none
      | _ :: _ => (digitsToNatAux rest 0).map (fun n => -(n : Int))
  | l => (digitsToNatAux l 0).map (fun n => (n : Int))

/-- Modelled from the spec: the Replacer render function (punch/replacer.py is
not in src/) substitutes every recognized placeholder with the corresponding
part value and leaves unrecognized placeholders literally in place. -/
def render (template : String) (mapping : List (String × String)) : String :=
  match splitOnStr template phOpen with
  | [] => template
  | first :: chunks =>
      first ++ String.join (chunks.map (fun chunk =>
        match splitOnStr chunk phClose with
        | [] => phOpen ++ chunk
        | [onlyPiece] => phOpen ++ onlyPiece
        | inner :: r :: rest =>
            (match List.lookup (trimStr inner) mapping with
             | some v => v
             | none => phOpen ++ inner ++ phClose) ++
            String.intercalate phClose (r :: rest)))

/-- Modelled from the spec: the Replacer (punch/replacer.py is not in src/)
holds the configured serializer templates. -/
structure Replacer where
  serializers : List String
deriving DecidableEq, Repr

/-- A replacer over the single globally configured serializer. -/
def Replacer.ofSerializer (t : String) : Replacer := ⟨[t]⟩

/-- Modelled from the spec: run_main_serializer renders the primary serializer
for the current and the new version. -/
def Replacer.run_main_serializer (r : Replacer) (cur new : List (String × String)) :
    String × String :=
  match r.serializers with
  | t :: _ => (render t cur, render t new)
  | [] => ("", "")

/-- Deduplication that keeps the first occurrence of each pair, preserving order. -/
def dedupFirst : List (String × String) → List (String × String)
  | [] => []
  | x :: xs => x :: (dedupFirst xs).filter (fun y => y ≠ x)

/-- Modelled from the spec: run_all_serializers renders every distinct
serializer template for the current and the new version, deduplicated in
first-seen order. -/
def Replacer.run_all_serializers (r : Replacer) (cur new : List (String × String)) :
    List (String × String) :=
  dedupFirst (r.serializers.map (fun t => (render t cur, render t new)))

/-- Configuration of one target file: its path and its template patterns. -/
structure FileConfig where
  path : String
  serializers : List String
deriving DecidableEq, Repr

/-- Modelled from the spec: FileUpdater.get_summary (punch/file_updater.py is
not in src/) renders each configured template for the current and the new
version and keeps only the pairs whose renderings differ. -/
def FileUpdater.get_summary (fc : FileConfig) (cur new : List (String × String)) :
    List (String × String) :=
  (fc.serializers.map (fun t => (render t cur, render t new))).filter
    (fun p => p.1 ≠ p.2)

/-- Whether the string needle occurs in the string hay. -/
def occursIn (needle hay : String) : Bool :=
  (splitOnStr hay needle).length ≥ 2

/-- Replacement of every occurrence of needle in hay by repl. -/
def replaceAll (hay needle repl : String) : String :=
  String.intercalate repl (splitOnStr hay needle)

/-- Modelled from the spec: the per-pattern substitution loop of
FileUpdater.update; it fails with a ValueError on the first pattern whose old
rendering does not occur in the content, aborting the remaining patterns of
that file without writing. -/
def FileUpdater.applyPairs (path : String) :
    List (String × String) → String → Except String String
  | [], c => Except.ok c
  | (o, n) :: rest, c =>
      if occursIn o c then FileUpdater.applyPairs path rest (replaceAll c o n)
      else Except.error ("The string " ++ o ++ " was not found in file " ++ path)

/-- Modelled from the spec: FileUpdater.update (punch/file_updater.py is not in
src/) performs all pattern substitutions for a file from one read of its
content, failing with a ValueError if a pattern's old rendering is absent. -/
def FileUpdater.updateContent (fc : FileConfig) (cur new : List (String × String))
    (content : String) : Except String String :=
  FileUpdater.applyPairs fc.path (FileUpdater.get_summary fc cur new) content

/-- The registered action variants. -/
inductive ActionClass where
  | increase
  | setAction
deriving DecidableEq, Repr

/-- Modelled from the spec: the Action Registry (punch/action_register.py is
not in src/) maps a type name to a registered action variant and fails for an
unregistered name. -/
def ActionRegister.get : String → Except String ActionClass
  | "increase" => Except.ok ActionClass.increase
  | "set" => Except.ok ActionClass.setAction
  | s => Except.error ("The action type " ++ s ++ " is not registered")

/-- Increment of a part value: integers grow by one. -/
def incrValue : PartValue → PartValue
  | .int n => .int (n + 1)
  | .str s => .str s

/-- Increment of the named part and reset of every part ordered after it. -/
def increaseValues (part : String) : List VersionPart → List VersionPart
  | [] => []
  | p :: rest =>
      if p.name = part then
        { p with value := incrValue p.value } ::
          rest.map (fun q => { q with value := q.value.zero })
      else p :: increaseValues part rest

/-- Modelled from the spec: the Increase action (punch/actions.py is not in
src/) increments the named part and resets every later part to its zero
value, failing when the part is not declared. -/
def IncreaseAction.process_version (opts : List (String × String)) (v : Version) :
    Except String Version :=
  match List.lookup "part" opts with
  | none => Except.error "The increase action requires a part option"
  | some part =>
      if v.values.any (fun p => p.name = part) then
        Except.ok ⟨increaseValues part v.values⟩
      else Except.error ("The part " ++ part ++ " is not declared")

/-- Coercion of a textual option value to the kind of the part it replaces. -/
def coerceValue (old : PartValue) (s : String) : PartValue :=
  match old with
  | .int _ =>
      match strToInt? s with
      | some n => .int n
      | none => .str s
  | .str _ => .str s

/-- Modelled from the spec: the Set action (punch/actions.py is not in src/)
assigns each named part the given value, coerced to the part's kind. -/
def SetAction.process_version (opts : List (String × String)) (v : Version) : Version :=
  ⟨v.values.map (fun p =>
    match List.lookup p.name opts with
    | some s => { p with value := coerceValue p.value s }
    | none => p)⟩

/-- Dispatch of process_version over the registered action variants. -/
def Action.process_version : ActionClass → List (String × String) → Version →
    Except String Version
  | .increase, opts, v => IncreaseAction.process_version opts v
  | .setAction, opts, v => Except.ok (SetAction.process_version opts v)

/-- Modelled from the spec: helpers.optstr2dict (punch/helpers.py is not in
src/) parses an option string of the form key=value[,key=value...] into a
mapping. -/
def optstr2dict (s : String) : List (String × String) :=
  (splitOnStr s ",").map (fun opt =>
    match splitOnStr opt "=" with
    | [] => ("", "")
    | [k] => (k, "")
    | k :: r :: rest => (k, String.intercalate "=" (r :: rest)))

/-- Assignment of one key in an association list, appending when absent. -/
def setKey (d : List (String × String)) (k v : String) : List (String × String) :=
  if d.any (fun e => e.1 = k) then
    d.map (fun e => if e.1 = k then (k, v) else e)
  else d ++ [(k, v)]

/-- Python-style dict.update over association lists. -/
def updateDict (d upd : List (String × String)) : List (String × String) :=
  upd.foldl (fun acc kv => setKey acc kv.1 kv.2) d

/-- The raw VCS section of the configuration. -/
structure VCSConfigDict where
  name : String
  commit_message : String
  options : List (String × String)
deriving DecidableEq, Repr

/-- The VCS configuration handed to the repository collaborator. -/
structure VCSConfiguration where
  name : String
  commit_message : String
  options : List (String × String)
deriving DecidableEq, Repr

/-- Modelled from the spec: VCSConfiguration.from_dict
(punch/vcs_configuration.py is not in src/) renders the commit message with
the special current and new version variables. -/
def VCSConfiguration.from_dict (d : VCSConfigDict) (special : List (String × String)) :
    VCSConfiguration :=
  ⟨d.name, render d.commit_message special, d.options⟩

/-- The configuration the driver consumes, as loaded by PunchConfig. -/
structure Config where
  globalsSerializer : String
  files : List FileConfig
  version : List String
  actions : List (String × List (String × String))
  vcs : Option VCSConfigDict
deriving Repr

end Punch

namespace Punch

/-- The parsed command-line arguments of the driver. -/
structure Args where
  config_file : String := "punch_config.py"
  version_file : String := "punch_version.py"
  part : Option String := none
  set_part : Option String := none
  action : Option String := none
  action_options : Option String := none
  action_flags : Option String := none
  reset_on_set : Bool := false
  verbose : Bool := false
  version : Bool := false
  init : Bool := false
  simulate : Bool := false

/-- Python truthiness of an optional string argument: present and non-empty. -/
def truthy : Option String → Bool
  | none => false
  | some s => s ≠ ""

/-- An observable event of a run: console output, reads and writes, the
version-control lifecycle transitions, and the application of an action. -/
inductive Event where
  | print (s : String)
  | readVersionStore (path : String)
  | writeTargetFile (path : String) (content : String)
  | writeVersionStore (path : String) (v : Version)
  | vcsPreStartRelease
  | vcsStartRelease
  | vcsFinishRelease
  | vcsPostFinishRelease
  | applyAction (name : String) (options : Option String)
deriving DecidableEq, Repr

/-- How a run terminated: an explicit exit, an uncaught exception, or a
normal return from main. -/
inductive Outcome where
  | exited (code : Nat)
  | raised (msg : String)
  | fellThrough
deriving DecidableEq, Repr

/-- The observable result of one run. -/
structure RunResult where
  trace : List Event
  outcome : Outcome
deriving Repr

/-- The environment a run executes in: the loaded configuration, the version
store contents, the target file contents, and failure switches for the
repository collaborator. -/
structure Env where
  configResult : Except String Config
  versionStore : List (String × PartValue)
  fileContents : String → String
  configFileExists : Bool
  versionFileExists : Bool
  repoInitFails : Bool
  preStartFails : Bool
  startFails : Bool
  finishFails : Bool
  postFinishFails : Bool

/-- The punch package version string printed in banners. -/
def punchVersionString : String := "1.0.2"

/-- Name of the default configuration file written by the init mode. -/
def default_config_file_name : String := "punch_config.py"

/-- Content of the default configuration file written by the init mode. -/
def default_config_file_content : String :=
  "__config_version__ = 1\n\nGLOBALS = \x7b\n    \x27serializer\x27: \x27\x7b\x7bmajor\x7d\x7d.\x7b\x7bminor\x7d\x7d.\x7b\x7bpatch\x7d\x7d\x27,\n\x7d\n\nFILES = []\n\nVERSION = [\x27major\x27, \x27minor\x27, \x27patch\x27]\n\nVCS = \x7b\n    \x27name\x27: \x27git\x27,\n    \x27commit_message\x27: (\n        \"Version updated from \x7b\x7b current_version \x7d\x7d\",\n        \" to \x7b\x7b new_version \x7d\x7d\"),\n\x7d\n"

/-- Name of the default version file written by the init mode. -/
def default_version_file_name : String := "punch_version.py"

/-- Content of the default version file written by the init mode. -/
def default_version_file_content : String :=
  "major = 0\nminor = 1\npatch = 0\n"

/-- The banner printed for the version flag. -/
def versionBanner : List Event :=
  [.print ("Punch version " ++ punchVersionString),
   .print "Copyright (C) 2016 Leonardo Giordani",
   .print "This is free software, see the LICENSE file.",
   .print "Source: https://github.com/lgiordani/punch",
   .print "Documentation: http://punch.readthedocs.io/en/latest/"]

/-- The writes performed by the init mode: each default file is written only
when it does not already exist. -/
def initTrace (env : Env) : List Event :=
  (if env.configFileExists then []
   else [Event.writeTargetFile default_config_file_name default_config_file_content])
  ++ (if env.versionFileExists then []
      else [Event.writeTargetFile default_version_file_name default_version_file_content])

/-- The per-part lines of show_version_parts. -/
def showVersionParts (values : List VersionPart) : List Event :=
  values.map (fun p => .print (p.name ++ "=" ++ p.value.toStr))

/-- The per-change lines of show_version_updates. -/
def showVersionUpdates (changes : List (String × String)) : List Event :=
  changes.map (fun c => .print ("  * " ++ c.1 ++ " -> " ++ c.2))

/-- The verbose section printed for one configured file. -/
def fileSummarySection (cur new : List (String × String)) (fc : FileConfig) : List Event :=
  .print ("* " ++ fc.path ++ ":") ::
    showVersionUpdates (FileUpdater.get_summary fc cur new)

/-- The verbose section printed for the version-control configuration. -/
def vcsSummarySection : Option VCSConfiguration → List Event
  | none => []
  | some v =>
      [.print "\nVersion control configuration",
       .print ("Name: " ++ v.name),
       .print ("Commit message " ++ v.commit_message),
       .print ("Options: " ++ toString v.options)]

/-- The full verbose summary: current parts, new parts, global version
updates, per-file changes, and the version-control configuration. -/
def verboseSummary (config : Config) (cur new : Version) (replacer : Replacer)
    (vcsConf : Option VCSConfiguration) : List Event :=
  [.print "\n* Current version"] ++ showVersionParts cur.values
    ++ [.print "\n* New version"] ++ showVersionParts new.values
    ++ [.print "\n* Global version updates"]
    ++ showVersionUpdates (replacer.run_all_serializers cur.as_dict new.as_dict)
    ++ [.print "\nConfigured files"]
    ++ config.files.bind (fileSummarySection cur.as_dict new.as_dict)
    ++ vcsSummarySection vcsConf

/-- The events of one configured file's update attempt: a write of the new
content on success, a warning print when the update raises a ValueError. -/
def fileStep (env : Env) (cur new : List (String × String)) (fc : FileConfig) :
    List Event :=
  match FileUpdater.updateContent fc cur new (env.fileContents fc.path) with
  | .ok newContent => [.writeTargetFile fc.path newContent]
  | .error msg => [.print ("Warning: " ++ msg)]

/-- The file-update loop of the driver: every configured file is attempted in
order, a failing file only produces a warning. -/
def updateFilesLoop (env : Env) (cur new : List (String × String))
    (files : List FileConfig) : List Event :=
  files.bind (fileStep env cur new)

/-- The mutation phase of a non-simulated run: the optional version-control
release lifecycle wrapped around the file updates and the version store
write. -/
def mutationPhase (env : Env) (versionFilePath : String) (files : List FileConfig)
    (newv : Version) (cur new : List (String × String))
    (vcsConf : Option VCSConfiguration) : List Event × Outcome :=
  match vcsConf with
  | none =>
      (updateFilesLoop env cur new files
        ++ [Event.writeVersionStore versionFilePath newv], .fellThrough)
  | some vc =>
      if vc.name = "git" ∨ vc.name = "git-flow" then
        if env.repoInitFails then
          ([.print "An error occurred while initializing the version control repository",
            .print "Exception RepositorySystemError: repository error"], .exited 1)
        else if env.preStartFails then
          ([Event.vcsPreStartRelease], .raised "pre_start_release failed")
        else if env.startFails then
          ([Event.vcsPreStartRelease, Event.vcsStartRelease], .raised "start_release failed")
        else
          let base := Event.vcsPreStartRelease :: Event.vcsStartRelease ::
            updateFilesLoop env cur new files
            ++ [Event.writeVersionStore versionFilePath newv, Event.vcsFinishRelease]
          if env.finishFails then (base, .raised "finish_release failed")
          else if env.postFinishFails then
            (base ++ [Event.vcsPostFinishRelease], .raised "post_finish_release failed")
          else (base ++ [Event.vcsPostFinishRelease], .fellThrough)
      else
        ([.print ("The requested version control system " ++ vc.name
           ++ " is not supported.")], .exited 1)

/-- Resolution of the action selected by the arguments: a part argument
selects the increase action, a set-part argument overrides it with the set
action. -/
def resolveAction (args : Args) : Option String × Option String :=
  let afterPart :=
    if truthy args.part then
      (some "punch:increase", some ("part=" ++ args.part.getD ""))
    else (args.action, args.action_options)
  if truthy args.set_part then (some "punch:set", args.set_part) else afterPart

/-- The option mapping handed to the action: the configured action dictionary
without its type discriminator, updated with the parsed command-line option
string when one is present. -/
def effectiveDict (action_dict : List (String × String)) (actOpts : Option String) :
    List (String × String) :=
  if truthy actOpts then
    updateDict (action_dict.filter (fun kv => kv.1 ≠ "type")) (optstr2dict (actOpts.getD ""))
  else action_dict.filter (fun kv => kv.1 ≠ "type")

/-- The action block of the driver: looks the action up in the configuration,
extracts its type, merges the command-line options, resolves the registered
variant and applies it to the version. -/
def actionStep (config : Config) (actName actOpts : Option String) (v : Version) :
    Except (List Event × Outcome) (List Event × Version) :=
  if truthy actName then
    match List.lookup (actName.getD "") config.actions with
    | none =>
        Except.error ([.print ("The requested action " ++ actName.getD ""
          ++ " is not defined.")], .exited 0)
    | some action_dict =>
        match List.lookup "type" action_dict with
        | none =>
            Except.error ([.print "The action configuration is missing the \x27type\x27 field."],
              .exited 0)
        | some action_name =>
            match ActionRegister.get action_name with
            | .error m => Except.error ([], .raised m)
            | .ok cls =>
                match Action.process_version cls (effectiveDict action_dict actOpts) v with
                | .error m => Except.error ([.applyAction (actName.getD "") actOpts], .raised m)
                | .ok v2 => Except.ok ([.applyAction (actName.getD "") actOpts], v2)
  else Except.ok ([], v)

/-- The driver: the embedding of main from src/punch/cli.py as a pure function
from arguments and environment to the run's observable trace and outcome. -/
def main (args0 : Args) (env : Env) : RunResult :=
  if args0.version then ⟨versionBanner, .exited 0⟩
  else
    let args := if args0.simulate then { args0 with verbose := true } else args0
    if args.init then ⟨initTrace env, .exited 0⟩
    else if !(truthy args.part || truthy args.set_part || truthy args.action) then
      ⟨[.print "You must specify one of --part, --set-part, or --action"], .exited 1⟩
    else if truthy args.set_part && args.reset_on_set
        && decide ((splitOnStr (args.set_part.getD "") ",").length > 1) then
      ⟨[.print "If you specify --reset-on-set you may set only one value"], .exited 1⟩
    else
      let banner :=
        if args.verbose then [Event.print ("## Punch version " ++ punchVersionString)]
        else []
      match env.configResult with
      | .error msg =>
          ⟨banner ++ [.print "An error occurred while reading the configuration file.",
                      .print ("Exception ValueError: " ++ msg)], .exited 1⟩
      | .ok config =>
        if !args.simulate && config.files.isEmpty then
          ⟨banner ++ [.print "You didn\x27t configure any file"], .exited 1⟩
        else
          match Version.from_file env.versionStore config.version with
          | .error msg =>
              ⟨banner ++ [.readVersionStore args.version_file], .raised msg⟩
          | .ok current_version =>
            let rEv := [Event.readVersionStore args.version_file]
            let acts := resolveAction args
            match actionStep config acts.1 acts.2 current_version.copy with
            | .error e => ⟨banner ++ rEv ++ e.1, e.2⟩
            | .ok av =>
              let new_version := av.2
              let replacer := Replacer.ofSerializer config.globalsSerializer
              let strs := replacer.run_main_serializer
                current_version.as_dict new_version.as_dict
              let vcsConf := config.vcs.map (fun d =>
                VCSConfiguration.from_dict d
                  [("current_version", strs.1), ("new_version", strs.2)])
              let vTrace :=
                if args.verbose then
                  verboseSummary config current_version new_version replacer vcsConf
                else []
              let m :=
                if !args.simulate then
                  mutationPhase env args.version_file config.files new_version
                    current_version.as_dict new_version.as_dict vcsConf
                else ([], .fellThrough)
              ⟨banner ++ rEv ++ av.1 ++ vTrace ++ m.1, m.2⟩

end Punch

namespace Punch

/-- Whether an event is console output. -/
def Event.isPrint : Event → Bool
  | .print _ => true
  | _ => false

/-- Whether an event is a version-control lifecycle transition. -/
def Event.isLifecycle : Event → Bool
  | .vcsPreStartRelease => true
  | .vcsStartRelease => true
  | .vcsFinishRelease => true
  | .vcsPostFinishRelease => true
  | _ => false

/-- Whether an event writes a target file. -/
def Event.isTargetWrite : Event → Bool
  | .writeTargetFile _ _ => true
  | _ => false

/-- Whether an event writes the version store. -/
def Event.isStoreWrite : Event → Bool
  | .writeVersionStore _ _ => true
  | _ => false

/-- Whether an event is a write of any kind. -/
def Event.isWrite (e : Event) : Bool := e.isTargetWrite || e.isStoreWrite

/-- Whether an event is an observable side effect: a write to a file or to the
version store, or a version-control lifecycle transition. -/
def Event.isEffect (e : Event) : Bool := e.isLifecycle || e.isWrite

/-- A trace that performs no write and no version-control lifecycle transition. -/
def noEffects (t : List Event) : Prop := ∀ e ∈ t, e.isEffect = false

/-- A trace consisting of console output only. -/
def onlyPrints (t : List Event) : Prop := ∀ e ∈ t, e.isPrint = true

lemma Event.isEffect_of_isPrint {e : Event} (h : e.isPrint = true) :
    e.isEffect = false := by
  cases e <;> simp_all [Event.isPrint, Event.isEffect, Event.isLifecycle,
    Event.isWrite, Event.isTargetWrite, Event.isStoreWrite]

lemma noEffects_of_onlyPrints {t : List Event} (h : onlyPrints t) : noEffects t :=
  fun e he => Event.isEffect_of_isPrint (h e he)

lemma noEffects_append {t₁ t₂ : List Event} (h₁ : noEffects t₁) (h₂ : noEffects t₂) :
    noEffects (t₁ ++ t₂) := by
  intro e he
  rcases List.mem_append.mp he with h | h
  · exact h₁ e h
  · exact h₂ e h

lemma noEffects_cons {e : Event} {t : List Event} (he : e.isEffect = false)
    (h : noEffects t) : noEffects (e :: t) := by
  intro x hx
  rcases List.mem_cons.mp hx with rfl | hx
  · exact he
  · exact h x hx

lemma noEffects_nil : noEffects [] := by
  intro e he
  exact absurd he (List.not_mem_nil e)

lemma onlyPrints_append {t₁ t₂ : List Event} (h₁ : onlyPrints t₁) (h₂ : onlyPrints t₂) :
    onlyPrints (t₁ ++ t₂) := by
  intro e he
  rcases List.mem_append.mp he with h | h
  · exact h₁ e h
  · exact h₂ e h

lemma onlyPrints_cons {s : String} {t : List Event} (h : onlyPrints t) :
    onlyPrints (Event.print s :: t) := by
  intro x hx
  rcases List.mem_cons.mp hx with rfl | hx
  · rfl
  · exact h x hx

lemma onlyPrints_nil : onlyPrints [] := by
  intro e he
  exact absurd he (List.not_mem_nil e)

lemma onlyPrints_singleton (s : String) : onlyPrints [Event.print s] :=
  onlyPrints_cons onlyPrints_nil

lemma onlyPrints_showVersionParts (l : List VersionPart) :
    onlyPrints (showVersionParts l) := by
  intro e he
  simp only [showVersionParts, List.mem_map] at he
  obtain ⟨p, _, rfl⟩ := he
  rfl

lemma onlyPrints_showVersionUpdates (l : List (String × String)) :
    onlyPrints (showVersionUpdates l) := by
  intro e he
  simp only [showVersionUpdates, List.mem_map] at he
  obtain ⟨p, _, rfl⟩ := he
  rfl

lemma onlyPrints_fileSummarySection (cur new : List (String × String)) (fc : FileConfig) :
    onlyPrints (fileSummarySection cur new fc) :=
  onlyPrints_cons (onlyPrints_showVersionUpdates _)

lemma onlyPrints_vcsSummarySection (vc : Option VCSConfiguration) :
    onlyPrints (vcsSummarySection vc) := by
  cases vc with
  | none => exact onlyPrints_nil
  | some v =>
      intro e he
      simp only [vcsSummarySection, List.mem_cons, List.not_mem_nil, or_false] at he
      rcases he with rfl | rfl | rfl | rfl <;> rfl

lemma onlyPrints_verboseSummary (config : Config) (cur new : Version)
    (r : Replacer) (vc : Option VCSConfiguration) :
    onlyPrints (verboseSummary config cur new r vc) := by
  unfold verboseSummary
  repeat' apply onlyPrints_append
  all_goals first
    | exact onlyPrints_singleton _
    | exact onlyPrints_showVersionParts _
    | exact onlyPrints_showVersionUpdates _
    | exact onlyPrints_vcsSummarySection _
    | (intro e he;
       simp only [List.mem_bind] at he;
       obtain ⟨fc, _, hf⟩ := he;
       exact onlyPrints_fileSummarySection _ _ fc e hf)

lemma onlyPrints_versionBanner : onlyPrints versionBanner := by
  intro e he
  simp only [versionBanner, List.mem_cons, List.not_mem_nil, or_false] at he
  rcases he with rfl | rfl | rfl | rfl | rfl <;> rfl

end Punch

namespace Punch

lemma noEffects_actionStep_error {config : Config} {an ao : Option String}
    {v : Version} {e : List Event × Outcome}
    (h : actionStep config an ao v = Except.error e) :
    noEffects e.1 ∧ e.2 ≠ Outcome.fellThrough := by
  unfold actionStep at h
  repeat' split at h
  all_goals cases h
  all_goals first
    | exact ⟨noEffects_nil, fun hc => by cases hc⟩
    | exact ⟨noEffects_cons rfl noEffects_nil, fun hc => by cases hc⟩

end Punch

namespace Punch

lemma actionStep_ok_events {config : Config} {an ao : Option String}
    {v : Version} {evs : List Event} {v2 : Version}
    (h : actionStep config an ao v = Except.ok (evs, v2)) :
    (truthy an = false ∧ evs = [] ∧ v2 = v) ∨
      (truthy an = true ∧ evs = [Event.applyAction (an.getD "") ao]) := by
  unfold actionStep at h
  repeat' split at h
  all_goals cases h
  all_goals simp_all

lemma noEffects_actionStep_ok {config : Config} {an ao : Option String}
    {v : Version} {av : List Event × Version}
    (h : actionStep config an ao v = Except.ok av) : noEffects av.1 := by
  have h2 : actionStep config an ao v = Except.ok (av.1, av.2) := h
  rcases actionStep_ok_events h2 with ⟨_, he, _⟩ | ⟨_, he⟩
  · rw [he]
    exact noEffects_nil
  · rw [he]
    exact noEffects_cons rfl noEffects_nil

lemma fileStep_events (env : Env) (cur new : List (String × String)) (fc : FileConfig) :
    (∃ c, fileStep env cur new fc = [Event.writeTargetFile fc.path c]) ∨
      (∃ m, FileUpdater.updateContent fc cur new (env.fileContents fc.path)
          = Except.error m ∧
        fileStep env cur new fc = [Event.print ("Warning: " ++ m)]) := by
  unfold fileStep
  cases h : FileUpdater.updateContent fc cur new (env.fileContents fc.path) with
  | ok c => exact Or.inl ⟨c, rfl⟩
  | error m => exact Or.inr ⟨m, rfl, rfl⟩

lemma fileStep_of_error {env : Env} {cur new : List (String × String)}
    {fc : FileConfig} {m : String}
    (h : FileUpdater.updateContent fc cur new (env.fileContents fc.path)
      = Except.error m) :
    fileStep env cur new fc = [Event.print ("Warning: " ++ m)] := by
  unfold fileStep
  rw [h]

lemma updateFilesLoop_append (env : Env) (cur new : List (String × String))
    (l₁ l₂ : List FileConfig) :
    updateFilesLoop env cur new (l₁ ++ l₂)
      = updateFilesLoop env cur new l₁ ++ updateFilesLoop env cur new l₂ := by
  simp [updateFilesLoop]

lemma updateFilesLoop_cons (env : Env) (cur new : List (String × String))
    (fc : FileConfig) (l : List FileConfig) :
    updateFilesLoop env cur new (fc :: l)
      = fileStep env cur new fc ++ updateFilesLoop env cur new l := by
  simp [updateFilesLoop]

lemma mem_updateFilesLoop {env : Env} {cur new : List (String × String)}
    {files : List FileConfig} {e : Event}
    (h : e ∈ updateFilesLoop env cur new files) :
    e.isLifecycle = false ∧ e.isStoreWrite = false ∧
      (e.isTargetWrite = true ∨ e.isPrint = true) := by
  simp only [updateFilesLoop, List.mem_bind] at h
  obtain ⟨fc, _, hf⟩ := h
  rcases fileStep_events env cur new fc with ⟨c, hs⟩ | ⟨m, _, hs⟩ <;>
    rw [hs] at hf <;>
    simp only [List.mem_cons, List.not_mem_nil, or_false] at hf <;>
    subst hf <;> simp [Event.isLifecycle, Event.isStoreWrite, Event.isTargetWrite,
      Event.isPrint]

end Punch

namespace Punch

lemma filter_isEffect_eq_nil {t : List Event} (h : noEffects t) :
    t.filter Event.isEffect = [] := by
  induction t with
  | nil => rfl
  | cons e t ih =>
      have he := h e (List.mem_cons_self e t)
      have ht : noEffects t := fun x hx => h x (List.mem_cons_of_mem _ hx)
      simp [List.filter_cons, he, ih ht]

/-- The possible shapes of the side-effect subsequence of a run's trace: either
writes only (no lifecycle transition at all), or a prefix of the lifecycle
sequence cut at a failing transition, with all writes strictly between
start_release and finish_release. -/
def effectsShape (t : List Event) : Prop :=
  (∀ e ∈ t.filter Event.isEffect, e.isWrite = true)
  ∨ t.filter Event.isEffect = [Event.vcsPreStartRelease]
  ∨ t.filter Event.isEffect = [Event.vcsPreStartRelease, Event.vcsStartRelease]
  ∨ ∃ ws, (∀ e ∈ ws, e.isWrite = true) ∧
      (t.filter Event.isEffect
          = Event.vcsPreStartRelease :: Event.vcsStartRelease :: ws
              ++ [Event.vcsFinishRelease]
        ∨ t.filter Event.isEffect
          = Event.vcsPreStartRelease :: Event.vcsStartRelease :: ws
              ++ [Event.vcsFinishRelease, Event.vcsPostFinishRelease])

lemma effectsShape_of_noEffects {t : List Event} (h : noEffects t) : effectsShape t := by
  refine Or.inl ?_
  intro e he
  rw [filter_isEffect_eq_nil h] at he
  exact absurd he (List.not_mem_nil e)

lemma effectsShape_prepend {pfx t : List Event} (h : noEffects pfx)
    (hs : effectsShape t) : effectsShape (pfx ++ t) := by
  unfold effectsShape at hs ⊢
  rw [List.filter_append, filter_isEffect_eq_nil h, List.nil_append]
  exact hs

lemma loop_filter_effect_writes (env : Env) (cur new : List (String × String))
    (files : List FileConfig) :
    ∀ e ∈ (updateFilesLoop env cur new files).filter Event.isEffect,
      e.isWrite = true := by
  intro e he
  rw [List.mem_filter] at he
  obtain ⟨hm, heff⟩ := he
  obtain ⟨hl, _, _⟩ := mem_updateFilesLoop hm
  simpa [Event.isEffect, hl] using heff

lemma loop_no_lifecycle_mem {env : Env} {cur new : List (String × String)}
    {files : List FileConfig} {e : Event} (hl : e.isLifecycle = true) :
    e ∉ updateFilesLoop env cur new files := by
  intro hm
  obtain ⟨h, _, _⟩ := mem_updateFilesLoop hm
  rw [h] at hl
  cases hl

lemma loop_no_storeWrite_mem {env : Env} {cur new : List (String × String)}
    {files : List FileConfig} {e : Event} (hl : e.isStoreWrite = true) :
    e ∉ updateFilesLoop env cur new files := by
  intro hm
  obtain ⟨_, h, _⟩ := mem_updateFilesLoop hm
  rw [h] at hl
  cases hl

end Punch

namespace Punch

lemma mutationPhase_effectsShape (env : Env) (vfp : String) (files : List FileConfig)
    (newv : Version) (cur new : List (String × String))
    (vcsConf : Option VCSConfiguration) :
    effectsShape (mutationPhase env vfp files newv cur new vcsConf).1 := by
  have hwv : (Event.writeVersionStore vfp newv).isEffect = true := rfl
  cases vcsConf with
  | none =>
      simp only [mutationPhase]
      refine Or.inl ?_
      intro e he
      rw [List.filter_append] at he
      rcases List.mem_append.mp he with h | h
      · exact loop_filter_effect_writes env cur new files e h
      · simp only [List.filter_cons, hwv, if_true, List.filter_nil] at h
        rcases List.mem_cons.mp h with rfl | h
        · rfl
        · exact absurd h (List.not_mem_nil e)
  | some vc =>
      simp only [mutationPhase]
      split
      · split
        · exact effectsShape_of_noEffects
            (noEffects_cons rfl (noEffects_cons rfl noEffects_nil))
        · split
          · refine Or.inr (Or.inl ?_)
            rfl
          · split
            · refine Or.inr (Or.inr (Or.inl ?_))
              rfl
            · have hws : ∀ e ∈ (updateFilesLoop env cur new files).filter Event.isEffect
                  ++ [Event.writeVersionStore vfp newv], e.isWrite = true := by
                intro e he
                rcases List.mem_append.mp he with h | h
                · exact loop_filter_effect_writes env cur new files e h
                · rcases List.mem_cons.mp h with rfl | h
                  · rfl
                  · exact absurd h (List.not_mem_nil e)
              have hbase : (Event.vcsPreStartRelease :: Event.vcsStartRelease ::
                    updateFilesLoop env cur new files
                    ++ [Event.writeVersionStore vfp newv, Event.vcsFinishRelease]).filter
                      Event.isEffect
                  = Event.vcsPreStartRelease :: Event.vcsStartRelease ::
                      ((updateFilesLoop env cur new files).filter Event.isEffect
                        ++ [Event.writeVersionStore vfp newv])
                      ++ [Event.vcsFinishRelease] := by
                simp [List.filter_cons, List.filter_append, List.filter_nil,
                  Event.isEffect, Event.isLifecycle, Event.isWrite,
                  Event.isTargetWrite, Event.isStoreWrite]
              have hpost : (Event.vcsPreStartRelease :: Event.vcsStartRelease ::
                    updateFilesLoop env cur new files
                    ++ [Event.writeVersionStore vfp newv, Event.vcsFinishRelease]
                    ++ [Event.vcsPostFinishRelease]).filter Event.isEffect
                  = Event.vcsPreStartRelease :: Event.vcsStartRelease ::
                      ((updateFilesLoop env cur new files).filter Event.isEffect
                        ++ [Event.writeVersionStore vfp newv])
                      ++ [Event.vcsFinishRelease, Event.vcsPostFinishRelease] := by
                simp [List.filter_cons, List.filter_append, List.filter_nil,
                  Event.isEffect, Event.isLifecycle, Event.isWrite,
                  Event.isTargetWrite, Event.isStoreWrite]
              split
              · exact Or.inr (Or.inr (Or.inr ⟨_, hws, Or.inl hbase⟩))
              · split
                · exact Or.inr (Or.inr (Or.inr ⟨_, hws, Or.inr hpost⟩))
                · exact Or.inr (Or.inr (Or.inr ⟨_, hws, Or.inr hpost⟩))
      · exact effectsShape_of_noEffects (noEffects_cons rfl noEffects_nil)

end Punch

namespace Punch

lemma mutationPhase_startFails {env : Env} {vfp : String} {files : List FileConfig}
    {newv : Version} {cur new : List (String × String)}
    {vcsConf : Option VCSConfiguration} (hs : env.startFails = true)
    (hm : Event.vcsStartRelease ∈ (mutationPhase env vfp files newv cur new vcsConf).1) :
    (mutationPhase env vfp files newv cur new vcsConf).1.filter Event.isEffect
      = [Event.vcsPreStartRelease, Event.vcsStartRelease] := by
  cases vcsConf with
  | none =>
      simp only [mutationPhase] at hm
      rcases List.mem_append.mp hm with h | h
      · exact absurd h (loop_no_lifecycle_mem rfl)
      · simp at h
  | some vc =>
      simp only [mutationPhase] at hm ⊢
      by_cases hn : vc.name = "git" ∨ vc.name = "git-flow"
      · rw [if_pos hn] at hm ⊢
        cases hri : env.repoInitFails with
        | true => simp [hri] at hm
        | false =>
            simp only [hri, Bool.false_eq_true, if_false] at hm ⊢
            cases hps : env.preStartFails with
            | true => simp [hps] at hm
            | false =>
                simp only [hps, Bool.false_eq_true, if_false, hs, if_true] at hm ⊢
                rfl
      · rw [if_neg hn] at hm
        simp at hm

end Punch

namespace Punch

lemma mutationPhase_storeWrite {env : Env} {vfp : String} {files : List FileConfig}
    {newv : Version} {cur new : List (String × String)}
    {vcsConf : Option VCSConfiguration} {p : String} {v : Version}
    (hm : Event.writeVersionStore p v
      ∈ (mutationPhase env vfp files newv cur new vcsConf).1) :
    ∃ t₁ t₂, (mutationPhase env vfp files newv cur new vcsConf).1
        = t₁ ++ updateFilesLoop env cur new files
            ++ Event.writeVersionStore p v :: t₂ := by
  cases vcsConf with
  | none =>
      simp only [mutationPhase] at hm ⊢
      rcases List.mem_append.mp hm with h | h
      · exact absurd h (loop_no_storeWrite_mem rfl)
      · rcases List.mem_cons.mp h with h | h
        · cases h
          exact ⟨[], [], by simp⟩
        · exact absurd h (List.not_mem_nil _)
  | some vc =>
      simp only [mutationPhase] at hm ⊢
      by_cases hn : vc.name = "git" ∨ vc.name = "git-flow"
      · rw [if_pos hn] at hm ⊢
        cases hri : env.repoInitFails with
        | true => simp [hri] at hm
        | false =>
            simp only [hri, Bool.false_eq_true, if_false] at hm ⊢
            cases hps : env.preStartFails with
            | true => simp [hps] at hm
            | false =>
                simp only [hps, Bool.false_eq_true, if_false] at hm ⊢
                cases hst : env.startFails with
                | true => simp [hst] at hm
                | false =>
                    simp only [hst, Bool.false_eq_true, if_false] at hm ⊢
                    have hmem : Event.writeVersionStore p v
                        ∈ Event.vcsPreStartRelease :: Event.vcsStartRelease ::
                          updateFilesLoop env cur new files
                          ++ [Event.writeVersionStore vfp newv, Event.vcsFinishRelease] := by
                      cases hfin : env.finishFails with
                      | true => simpa [hfin] using hm
                      | false =>
                          cases hpf : env.postFinishFails with
                          | true =>
                              simp only [hfin, hpf, Bool.false_eq_true, if_false,
                                if_true] at hm
                              rcases List.mem_append.mp hm with h | h
                              · exact h
                              · simp at h
                          | false =>
                              simp only [hfin, hpf, Bool.false_eq_true, if_false] at hm
                              rcases List.mem_append.mp hm with h | h
                              · exact h
                              · simp at h
                    have heq : p = vfp ∧ v = newv := by
                      rcases List.mem_cons.mp hmem with h | h
                      · cases h
                      · rcases List.mem_cons.mp h with h | h
                        · cases h
                        · rcases List.mem_append.mp h with h | h
                          · exact absurd h (loop_no_storeWrite_mem rfl)
                          · rcases List.mem_cons.mp h with h | h
                            · cases h; exact ⟨rfl, rfl⟩
                            · rcases List.mem_cons.mp h with h | h
                              · cases h
                              · exact absurd h (List.not_mem_nil _)
                    obtain ⟨rfl, rfl⟩ := heq
                    cases hfin : env.finishFails with
                    | true =>
                        refine ⟨[Event.vcsPreStartRelease, Event.vcsStartRelease],
                          [Event.vcsFinishRelease], ?_⟩
                        simp [hfin]
                    | false =>
                        cases hpf : env.postFinishFails with
                        | true =>
                            refine ⟨[Event.vcsPreStartRelease, Event.vcsStartRelease],
                              [Event.vcsFinishRelease, Event.vcsPostFinishRelease], ?_⟩
                            simp [hfin, hpf]
                        | false =>
                            refine ⟨[Event.vcsPreStartRelease, Event.vcsStartRelease],
                              [Event.vcsFinishRelease, Event.vcsPostFinishRelease], ?_⟩
                            simp [hfin, hpf]
      · rw [if_neg hn] at hm
        simp at hm

end Punch

namespace Punch

lemma onlyPrints_ite_print (c : Prop) [Decidable c] (s : String) :
    onlyPrints (if c then [Event.print s] else []) := by
  split
  · exact onlyPrints_singleton s
  · exact onlyPrints_nil

lemma initTrace_targetWrites (env : Env) :
    ∀ e ∈ initTrace env, e.isTargetWrite = true := by
  intro e he
  unfold initTrace at he
  rcases List.mem_append.mp he with h | h <;>
    (revert h; split <;> intro h) <;>
    first
      | exact absurd h (List.not_mem_nil e)
      | (rcases List.mem_cons.mp h with rfl | h
         · rfl
         · exact absurd h (List.not_mem_nil e))

lemma main_split (args0 : Args) (env : Env) :
    noEffects (main args0 env).trace
    ∨ (args0.init = true ∧ ∀ e ∈ (main args0 env).trace, e.isTargetWrite = true)
    ∨ (args0.simulate = false ∧ ∃ pfx config newv cur newd vcsConf,
        env.configResult = Except.ok config ∧ noEffects pfx ∧
        (main args0 env).trace
          = pfx ++ (mutationPhase env args0.version_file config.files newv cur newd
              vcsConf).1 ∧
        (main args0 env).outcome
          = (mutationPhase env args0.version_file config.files newv cur newd
              vcsConf).2) := by
  unfold main
  cases hv : args0.version with
  | true =>
      rw [if_pos rfl]
      exact Or.inl (noEffects_of_onlyPrints onlyPrints_versionBanner)
  | false =>
      rw [if_neg (by simp)]
      cases hsim : args0.simulate with
      | true =>
          simp only [reduceIte]
          split
          · next h => exact Or.inr (Or.inl ⟨h, initTrace_targetWrites env⟩)
          · split
            · exact Or.inl (noEffects_of_onlyPrints (onlyPrints_singleton _))
            · split
              · exact Or.inl (noEffects_of_onlyPrints (onlyPrints_singleton _))
              · cases hc : env.configResult with
                | error msg =>
                    exact Or.inl (noEffects_of_onlyPrints (onlyPrints_cons
                      (onlyPrints_cons (onlyPrints_singleton _))))
                | ok config =>
                    simp only [Bool.not_true, Bool.false_and, Bool.false_eq_true,
                      reduceIte]
                    split
                    · exact Or.inl (noEffects_cons rfl (noEffects_cons rfl
                        noEffects_nil))
                    · next cv heq =>
                        split
                        · next e heq2 =>
                            refine Or.inl (noEffects_cons rfl (noEffects_cons rfl ?_))
                            exact (noEffects_actionStep_error heq2).1
                        · next av heq2 =>
                            refine Or.inl (noEffects_cons rfl (noEffects_cons rfl ?_))
                            refine noEffects_append (noEffects_append
                              (noEffects_append noEffects_nil
                                (noEffects_actionStep_ok heq2))
                              (noEffects_of_onlyPrints
                                (onlyPrints_verboseSummary _ _ _ _ _)))
                              noEffects_nil
      | false =>
          simp only [Bool.false_eq_true, if_false]
          split
          · next h => exact Or.inr (Or.inl ⟨h, initTrace_targetWrites env⟩)
          · split
            · exact Or.inl (noEffects_of_onlyPrints (onlyPrints_singleton _))
            · split
              · exact Or.inl (noEffects_of_onlyPrints (onlyPrints_singleton _))
              · cases hc : env.configResult with
                | error msg =>
                    refine Or.inl (noEffects_append ?_ (noEffects_cons rfl
                      (noEffects_cons rfl noEffects_nil)))
                    exact noEffects_of_onlyPrints (onlyPrints_ite_print _ _)
                | ok config =>
                    simp only [Bool.not_false, Bool.true_and, eq_self_iff_true,
                      if_true]
                    split
                    · refine Or.inl (noEffects_append ?_ (noEffects_cons rfl
                        noEffects_nil))
                      exact noEffects_of_onlyPrints (onlyPrints_ite_print _ _)
                    · split
                      · refine Or.inl (noEffects_append ?_ (noEffects_cons rfl
                          noEffects_nil))
                        exact noEffects_of_onlyPrints (onlyPrints_ite_print _ _)
                      · next cv heq =>
                          split
                          · next e heq2 =>
                              refine Or.inl (noEffects_append (noEffects_append ?_
                                (noEffects_cons rfl noEffects_nil)) ?_)
                              · exact noEffects_of_onlyPrints (onlyPrints_ite_print _ _)
                              · exact (noEffects_actionStep_error heq2).1
                          · next av heq2 =>
                              refine Or.inr (Or.inr ⟨by trivial, ?_⟩)
                              refine ⟨(if args0.verbose = true then
                                    [Event.print ("## Punch version "
                                      ++ punchVersionString)] else [])
                                  ++ [Event.readVersionStore args0.version_file]
                                  ++ av.1
                                  ++ (if args0.verbose = true then
                                      verboseSummary config cv av.2
                                        (Replacer.ofSerializer config.globalsSerializer)
                                        (config.vcs.map (fun d =>
                                          VCSConfiguration.from_dict d
                                            [("current_version",
                                              ((Replacer.ofSerializer
                                                config.globalsSerializer).run_main_serializer
                                                cv.as_dict av.2.as_dict).1),
                                             ("new_version",
                                              ((Replacer.ofSerializer
                                                config.globalsSerializer).run_main_serializer
                                                cv.as_dict av.2.as_dict).2)])) else []),
                                config, av.2, cv.as_dict, av.2.as_dict,
                                config.vcs.map (fun d =>
                                  VCSConfiguration.from_dict d
                                    [("current_version",
                                      ((Replacer.ofSerializer
                                        config.globalsSerializer).run_main_serializer
                                        cv.as_dict av.2.as_dict).1),
                                     ("new_version",
                                      ((Replacer.ofSerializer
                                        config.globalsSerializer).run_main_serializer
                                        cv.as_dict av.2.as_dict).2)]),
                                by trivial, ?_, ?_, ?_⟩
                              · refine noEffects_append (noEffects_append
                                  (noEffects_append ?_ (noEffects_cons rfl
                                    noEffects_nil))
                                  (noEffects_actionStep_ok heq2)) ?_
                                · exact noEffects_of_onlyPrints
                                    (onlyPrints_ite_print _ _)
                                · split
                                  · exact noEffects_of_onlyPrints
                                      (onlyPrints_verboseSummary _ _ _ _ _)
                                  · exact noEffects_nil
                              · simp [hsim]
                              · simp [hsim]

end Punch

namespace Punch

lemma Event.isStoreWrite_eq_false_of_isEffect {e : Event} (h : e.isEffect = false) :
    e.isStoreWrite = false := by
  cases e <;> first | rfl | (cases h)

lemma Event.isWrite_of_isTargetWrite {e : Event} (h : e.isTargetWrite = true) :
    e.isWrite = true := by
  cases e <;> first | rfl | (cases h)

/-- A trace that never writes the version store. -/
def noStoreWrites (t : List Event) : Prop := ∀ e ∈ t, e.isStoreWrite = false

/-- Two-placeholder fixture template, rendering as major.minor. -/
def tmplMM : String :=
  ob ++ ob ++ "major" ++ cb ++ cb ++ "." ++ ob ++ ob ++ "minor" ++ cb ++ cb

/-- Fixture template with a literal prefix, rendering as vmajor. -/
def tmplV : String := "v" ++ ob ++ ob ++ "major" ++ cb ++ cb

/-- First fixture file configuration. -/
def fileA : FileConfig := ⟨"fileA.txt", [tmplMM]⟩

/-- Second fixture file configuration. -/
def fileB : FileConfig := ⟨"fileB.txt", [tmplV]⟩

/-- The two built-in actions as configured by PunchConfig. -/
def stdActions : List (String × List (String × String)) :=
  [("punch:increase", [("type", "increase")]), ("punch:set", [("type", "set")])]

/-- Fixture configuration without version control. -/
def cfgNoVcs : Config := ⟨tmplMM, [fileA, fileB], ["major", "minor"], stdActions, none⟩

/-- Fixture configuration with a git version-control section. -/
def cfgGit : Config := ⟨tmplMM, [fileA, fileB], ["major", "minor"], stdActions,
  some ⟨"git", "Version " ++ ob ++ ob ++ " current_version " ++ cb ++ cb, []⟩⟩

/-- Fixture version store holding major 1 and minor 2. -/
def stdStore : List (String × PartValue) := [("major", .int 1), ("minor", .int 2)]

/-- Fixture file contents in which both configured templates occur. -/
def stdContents : String → String := fun p =>
  if p = "fileA.txt" then "version 1.2 here" else "v1 tag"

/-- Fixture environment without version control and no collaborator failures. -/
def envNoVcs : Env :=
  ⟨Except.ok cfgNoVcs, stdStore, stdContents, true, true, false, false, false,
    false, false⟩

/-- Fixture environment with git configured and a failing start_release. -/
def envGitStartFails : Env :=
  ⟨Except.ok cfgGit, stdStore, stdContents, true, true, false, false, true,
    false, false⟩

/-- C2: in every run the version-control lifecycle operations execute in the
strict order pre_start_release, start_release, file updates, finish_release,
post_finish_release: the side-effect subsequence of the trace is either writes
only (no lifecycle transition at all) or a prefix of the lifecycle sequence
cut at the failing transition, with all writes strictly between start_release
and finish_release; and when start_release is invoked and fails, the side
effects of the whole run are exactly pre_start_release and start_release, so
neither the file updates nor the version persistence nor finish_release are
ever invoked. -/
theorem release_lifecycle_strict_order (args : Args) (env : Env) :
    effectsShape (main args env).trace ∧
      (env.startFails = true → Event.vcsStartRelease ∈ (main args env).trace →
        (main args env).trace.filter Event.isEffect
          = [Event.vcsPreStartRelease, Event.vcsStartRelease]) := by
  constructor
  · rcases main_split args env with h | h |
      ⟨_, pfx, config, newv, cur, newd, vcsConf, _, hpfx, htr, _⟩
    · exact effectsShape_of_noEffects h
    · refine Or.inl ?_
      intro e he
      rw [List.mem_filter] at he
      exact Event.isWrite_of_isTargetWrite (h.2 e he.1)
    · rw [htr]
      exact effectsShape_prepend hpfx (mutationPhase_effectsShape _ _ _ _ _ _ _)
  · intro hs hm
    rcases main_split args env with h | h |
      ⟨_, pfx, config, newv, cur, newd, vcsConf, _, hpfx, htr, _⟩
    · have := h _ hm
      cases this
    · have := h.2 _ hm
      cases this
    · rw [htr] at hm ⊢
      rw [List.filter_append, filter_isEffect_eq_nil hpfx, List.nil_append]
      apply mutationPhase_startFails hs
      rcases List.mem_append.mp hm with h | h
      · have := hpfx _ h
        cases this
      · exact h

/-- Witness for C2 at a concrete run whose start_release transition fails:
the side effects of the whole run are exactly pre_start_release then
start_release, so no file update, no version write and no finish_release. -/
theorem release_lifecycle_strict_order_witness :
    effectsShape (main { part := some "major" } envGitStartFails).trace ∧
      (main { part := some "major" } envGitStartFails).trace.filter Event.isEffect
        = [Event.vcsPreStartRelease, Event.vcsStartRelease] :=
  ⟨(release_lifecycle_strict_order { part := some "major" } envGitStartFails).1,
   (release_lifecycle_strict_order { part := some "major" } envGitStartFails).2
     rfl (by decide)⟩

end Punch

namespace Punch

/-- C4: the version store is written only in non-simulated runs, and only
immediately after the update of every configured file has been attempted:
wherever a version-store write occurs in a trace, it directly follows the
complete file-update loop over the configured files. -/
theorem store_write_after_all_updates (args : Args) (env : Env) :
    (args.simulate = true → noStoreWrites (main args env).trace) ∧
      (∀ p v, Event.writeVersionStore p v ∈ (main args env).trace →
        ∃ config cur newd t₁ t₂, env.configResult = Except.ok config ∧
          (main args env).trace
            = t₁ ++ updateFilesLoop env cur newd config.files
                ++ Event.writeVersionStore p v :: t₂) := by
  constructor
  · intro hsim
    rcases main_split args env with h | h | ⟨hs, _⟩
    · exact fun e he => Event.isStoreWrite_eq_false_of_isEffect (h e he)
    · intro e he
      have := h.2 e he
      cases e <;> first | rfl | (cases this)
    · rw [hsim] at hs
      cases hs
  · intro p v hm
    rcases main_split args env with h | h |
      ⟨_, pfx, config, newv, cur, newd, vcsConf, hc, hpfx, htr, _⟩
    · have := Event.isStoreWrite_eq_false_of_isEffect (h _ hm)
      cases this
    · have := h.2 _ hm
      cases this
    · rw [htr] at hm
      rcases List.mem_append.mp hm with h | h
      · have := Event.isStoreWrite_eq_false_of_isEffect (hpfx _ h)
        cases this
      · obtain ⟨t₁, t₂, hdec⟩ := mutationPhase_storeWrite h
        refine ⟨config, cur, newd, pfx ++ t₁, t₂, hc, ?_⟩
        rw [htr, hdec]
        simp [List.append_assoc]

end Punch

namespace Punch

/-- The version value written by the increase-major fixture run. -/
def verNew : Version := ⟨[⟨"major", .int 2⟩, ⟨"minor", .int 0⟩]⟩

/-- Witness for C4: a simulated fixture run writes no version store entry, and
in the corresponding non-simulated run the store write directly follows the
complete file-update loop. -/
theorem store_write_after_all_updates_witness :
    noStoreWrites (main { part := some "major", simulate := true } envNoVcs).trace ∧
      (∃ config cur newd t₁ t₂, envNoVcs.configResult = Except.ok config ∧
        (main { part := some "major" } envNoVcs).trace
          = t₁ ++ updateFilesLoop envNoVcs cur newd config.files
              ++ Event.writeVersionStore "punch_version.py" verNew :: t₂) :=
  ⟨(store_write_after_all_updates { part := some "major", simulate := true }
      envNoVcs).1 rfl,
   (store_write_after_all_updates { part := some "major" } envNoVcs).2
     "punch_version.py" verNew (by decide)⟩

end Punch

namespace Punch

/-- Presence of the full verbose summary in a trace: the current-version,
new-version, global-updates and configured-files sections, and one per-file
header for every configured file. -/
def summaryPresent (t : List Event) (files : List FileConfig) : Prop :=
  Event.print "\n* Current version" ∈ t ∧ Event.print "\n* New version" ∈ t ∧
    Event.print "\n* Global version updates" ∈ t ∧
    Event.print "\nConfigured files" ∈ t ∧
    ∀ fc ∈ files, Event.print ("* " ++ fc.path ++ ":") ∈ t

lemma summaryPresent_append_left {t s : List Event} {files : List FileConfig}
    (h : summaryPresent s files) : summaryPresent (t ++ s) files := by
  obtain ⟨h1, h2, h3, h4, h5⟩ := h
  exact ⟨List.mem_append_right t h1, List.mem_append_right t h2,
    List.mem_append_right t h3, List.mem_append_right t h4,
    fun fc hfc => List.mem_append_right t (h5 fc hfc)⟩

lemma summaryPresent_append_right {t s : List Event} {files : List FileConfig}
    (h : summaryPresent t files) : summaryPresent (t ++ s) files := by
  obtain ⟨h1, h2, h3, h4, h5⟩ := h
  exact ⟨List.mem_append_left s h1, List.mem_append_left s h2,
    List.mem_append_left s h3, List.mem_append_left s h4,
    fun fc hfc => List.mem_append_left s (h5 fc hfc)⟩

lemma summaryPresent_verboseSummary (config : Config) (cur new : Version)
    (r : Replacer) (vc : Option VCSConfiguration) :
    summaryPresent (verboseSummary config cur new r vc) config.files := by
  unfold verboseSummary
  refine ⟨?_, ?_, ?_, ?_, ?_⟩
  · simp [List.mem_append]
  · simp [List.mem_append]
  · simp [List.mem_append]
  · simp [List.mem_append]
  · intro fc hfc
    have hmem : Event.print ("* " ++ fc.path ++ ":")
        ∈ config.files.bind (fileSummarySection cur.as_dict new.as_dict) :=
      List.mem_bind.mpr ⟨fc, hfc, List.mem_cons_self _ _⟩
    simp only [List.mem_append]
    exact Or.inl (Or.inr hmem)

end Punch

namespace Punch

/-- C1: with simulation active, a run that is not the version-banner or init
mode performs no write to any file, no write to the version store and no
version-control lifecycle transition; and when such a run completes normally
it still prints the full textual summary: current parts, new parts, global
version updates and the per-file change sections. -/
theorem simulate_no_side_effects (args : Args) (env : Env) (config : Config)
    (hs : args.simulate = true) (hv : args.version = false) (hi : args.init = false)
    (hc : env.configResult = Except.ok config) :
    noEffects (main args env).trace ∧
      ((main args env).outcome = Outcome.fellThrough →
        summaryPresent (main args env).trace config.files) := by
  constructor
  · rcases main_split args env with h | ⟨hinit, _⟩ | ⟨hsimf, _⟩
    · exact h
    · rw [hi] at hinit
      cases hinit
    · rw [hs] at hsimf
      cases hsimf
  · unfold main
    rw [if_neg (by simp [hv])]
    simp only [hs, eq_self_iff_true, if_true, hi, Bool.false_eq_true, if_false,
      Bool.not_true, Bool.false_and, hc]
    split
    · intro hout
      cases hout
    · split
      · intro hout
        cases hout
      · split
        · intro hout
          cases hout
        · next cv heq =>
            split
            · next e heq2 =>
                intro hout
                exact absurd hout (noEffects_actionStep_error heq2).2
            · next av heq2 =>
                intro _
                exact summaryPresent_append_right (summaryPresent_append_left
                  (summaryPresent_verboseSummary _ _ _ _ _))
end Punch

namespace Punch

/-- Witness for C1 at a concrete simulated run: no side effects whatsoever and
the full summary is present. -/
theorem simulate_no_side_effects_witness :
    noEffects (main { part := some "major", simulate := true } envNoVcs).trace ∧
      summaryPresent (main { part := some "major", simulate := true } envNoVcs).trace
        cfgNoVcs.files :=
  ⟨(simulate_no_side_effects { part := some "major", simulate := true } envNoVcs
      cfgNoVcs rfl rfl rfl rfl).1,
   (simulate_no_side_effects { part := some "major", simulate := true } envNoVcs
      cfgNoVcs rfl rfl rfl rfl).2 rfl⟩

end Punch

namespace Punch

/-- Fixture file contents in which fileA's template does not occur. -/
def mismatchContents : String → String := fun p =>
  if p = "fileA.txt" then "nothing here" else "v1 tag"

/-- Fixture environment without version control where fileA mismatches. -/
def envMismatch : Env :=
  ⟨Except.ok cfgNoVcs, stdStore, mismatchContents, true, true, false, false,
    false, false, false⟩

/-- C3: a ValueError raised by one configured file's update is recovered
locally by the driver's loop: the warning is printed in place of that file's
write, the offending file itself is never written, and every remaining
configured file is processed exactly as it would have been. -/
theorem pattern_mismatch_recovered (env : Env) (cur new : List (String × String))
    (pre post : List FileConfig) (fc : FileConfig) (msg : String)
    (herr : FileUpdater.updateContent fc cur new (env.fileContents fc.path)
      = Except.error msg) :
    updateFilesLoop env cur new (pre ++ fc :: post)
        = updateFilesLoop env cur new pre
            ++ Event.print ("Warning: " ++ msg) :: updateFilesLoop env cur new post ∧
      (∀ c, Event.writeTargetFile fc.path c ∉ fileStep env cur new fc) := by
  constructor
  · rw [updateFilesLoop_append, updateFilesLoop_cons, fileStep_of_error herr]
    rfl
  · intro c hm
    rw [fileStep_of_error herr] at hm
    rcases List.mem_cons.mp hm with h | h
    · cases h
    · exact absurd h (List.not_mem_nil _)

/-- The mapping of the fixture store version. -/
def curDict : List (String × String) := [("major", "1"), ("minor", "2")]

/-- The mapping of the increased fixture version. -/
def newDict : List (String × String) := [("major", "2"), ("minor", "0")]

/-- Witness for C3: with fileA's content lacking the rendered version, the
loop prints the warning in fileA's place, skips it, and still updates fileB. -/
theorem pattern_mismatch_recovered_witness :
    updateFilesLoop envMismatch curDict newDict ([] ++ fileA :: [fileB])
        = updateFilesLoop envMismatch curDict newDict []
            ++ Event.print ("Warning: The string 1.2 was not found in file fileA.txt")
              :: updateFilesLoop envMismatch curDict newDict [fileB] ∧
      (∀ c, Event.writeTargetFile fileA.path c
        ∉ fileStep envMismatch curDict newDict fileA) :=
  pattern_mismatch_recovered envMismatch curDict newDict [] [fileB] fileA
    "The string 1.2 was not found in file fileA.txt" rfl

end Punch

namespace Punch

/-- Counterexample for C8: in a concrete run where fileA mismatches and fileB
updates, the warning is printed at the moment of the mismatch, strictly before
the later file's write and before the end of the run, not as a batch at the
end. -/
theorem warnings_batched_counterexample :
    (main { part := some "major" } envMismatch).trace
        = [Event.readVersionStore "punch_version.py",
           Event.applyAction "punch:increase" (some "part=major"),
           Event.print "Warning: The string 1.2 was not found in file fileA.txt",
           Event.writeTargetFile "fileB.txt" "v2 tag",
           Event.writeVersionStore "punch_version.py" verNew] ∧
      List.indexOf
          (Event.print "Warning: The string 1.2 was not found in file fileA.txt")
          (main { part := some "major" } envMismatch).trace
        < List.indexOf (Event.writeTargetFile "fileB.txt" "v2 tag")
          (main { part := some "major" } envMismatch).trace :=
  ⟨rfl, by decide⟩

/-- C8 amended: each pattern-mismatch warning is emitted at the moment the
mismatch occurs, in the failing file's position inside the mutation phase:
it precedes the update events of every remaining configured file and the
version-store write, rather than being collected into a batch at the end. -/
theorem warnings_emitted_inline (env : Env) (vfp : String)
    (pre post : List FileConfig) (fc : FileConfig) (newv : Version)
    (cur new : List (String × String)) (vcsConf : Option VCSConfiguration)
    (msg : String)
    (herr : FileUpdater.updateContent fc cur new (env.fileContents fc.path)
      = Except.error msg)
    (hok : vcsConf = none ∨ ∃ vc, vcsConf = some vc ∧
      (vc.name = "git" ∨ vc.name = "git-flow") ∧ env.repoInitFails = false ∧
      env.preStartFails = false ∧ env.startFails = false) :
    ∃ t₁ t₂, (mutationPhase env vfp (pre ++ fc :: post) newv cur new vcsConf).1
        = t₁ ++ updateFilesLoop env cur new pre
            ++ Event.print ("Warning: " ++ msg)
              :: (updateFilesLoop env cur new post
                ++ Event.writeVersionStore vfp newv :: t₂) := by
  have hloop : updateFilesLoop env cur new (pre ++ fc :: post)
      = updateFilesLoop env cur new pre
          ++ Event.print ("Warning: " ++ msg) :: updateFilesLoop env cur new post := by
    rw [updateFilesLoop_append, updateFilesLoop_cons, fileStep_of_error herr]
    rfl
  rcases hok with rfl | ⟨vc, rfl, hn, hri, hps, hst⟩
  · refine ⟨[], [], ?_⟩
    simp only [mutationPhase, hloop]
    simp [List.append_assoc]
  · simp only [mutationPhase, if_pos hn, hri, hps, hst, Bool.false_eq_true,
      if_false, hloop]
    cases hfin : env.finishFails with
    | true =>
        refine ⟨[Event.vcsPreStartRelease, Event.vcsStartRelease],
          [Event.vcsFinishRelease], ?_⟩
        simp [List.append_assoc]
    | false =>
        cases hpf : env.postFinishFails with
        | true =>
            refine ⟨[Event.vcsPreStartRelease, Event.vcsStartRelease],
              [Event.vcsFinishRelease, Event.vcsPostFinishRelease], ?_⟩
            simp [List.append_assoc]
        | false =>
            refine ⟨[Event.vcsPreStartRelease, Event.vcsStartRelease],
              [Event.vcsFinishRelease, Event.vcsPostFinishRelease], ?_⟩
            simp [List.append_assoc]

/-- Witness for the amended C8 at the concrete mismatch fixture. -/
theorem warnings_emitted_inline_witness :
    ∃ t₁ t₂, (mutationPhase envMismatch "punch_version.py" ([] ++ fileA :: [fileB])
        verNew curDict newDict none).1
      = t₁ ++ updateFilesLoop envMismatch curDict newDict []
          ++ Event.print ("Warning: The string 1.2 was not found in file fileA.txt")
            :: (updateFilesLoop envMismatch curDict newDict [fileB]
              ++ Event.writeVersionStore "punch_version.py" verNew :: t₂) :=
  warnings_emitted_inline envMismatch "punch_version.py" [] [fileB] fileA verNew
    curDict newDict none "The string 1.2 was not found in file fileA.txt" rfl
    (Or.inl rfl)

end Punch

namespace Punch

/-- The remainder of the driver after the argument checks, configuration load
and version-store read have succeeded. -/
def mainTail (args : Args) (env : Env) (config : Config) (cv : Version) : RunResult :=
  let banner := if (args.simulate || args.verbose) = true then
      [Event.print ("## Punch version " ++ punchVersionString)] else []
  let rEv := [Event.readVersionStore args.version_file]
  match actionStep config (resolveAction args).1 (resolveAction args).2 cv.copy with
  | .error e => ⟨banner ++ rEv ++ e.1, e.2⟩
  | .ok av =>
      let replacer := Replacer.ofSerializer config.globalsSerializer
      let strs := replacer.run_main_serializer cv.as_dict av.2.as_dict
      let vcsConf := config.vcs.map (fun d =>
        VCSConfiguration.from_dict d
          [("current_version", strs.1), ("new_version", strs.2)])
      let vTrace := if (args.simulate || args.verbose) = true then
          verboseSummary config cv av.2 replacer vcsConf else []
      let m := if !args.simulate then
          mutationPhase env args.version_file config.files av.2 cv.as_dict
            av.2.as_dict vcsConf
        else ([], .fellThrough)
      ⟨banner ++ rEv ++ av.1 ++ vTrace ++ m.1, m.2⟩

lemma main_reaches_action (args : Args) (env : Env) (config : Config) (cv : Version)
    (hv : args.version = false) (hi : args.init = false)
    (hany : (truthy args.part || truthy args.set_part || truthy args.action) = true)
    (hrs : (truthy args.set_part && args.reset_on_set
        && decide ((splitOnStr (args.set_part.getD "") ",").length > 1)) = false)
    (hc : env.configResult = Except.ok config)
    (hfe : (!args.simulate && config.files.isEmpty) = false)
    (hvf : Version.from_file env.versionStore config.version = Except.ok cv) :
    main args env = mainTail args env config cv := by
  unfold main mainTail
  rw [if_neg (by simp [hv])]
  cases hsim : args.simulate with
  | true =>
      rw [hsim] at hfe
      simp only [hsim, eq_self_iff_true, if_true, hi, Bool.false_eq_true, if_false,
        hany, Bool.not_true, hrs, hc, hfe, hvf, Bool.true_or, Bool.false_and]
      rfl
  | false =>
      rw [hsim] at hfe
      simp only [Bool.not_false, Bool.true_and] at hfe
      simp only [hsim, Bool.false_eq_true, if_false, hi, hany, Bool.not_true,
        hrs, hc, hfe, hvf, Bool.not_false, Bool.false_or,
        eq_self_iff_true, if_true]
      rfl

end Punch

namespace Punch

lemma actionStep_error_outcome {config : Config} {an ao : Option String}
    {v : Version} {e : List Event × Outcome}
    (h : actionStep config an ao v = Except.error e) :
    e.2 = Outcome.exited 0 ∨ ∃ m, e.2 = Outcome.raised m := by
  unfold actionStep at h
  repeat' split at h
  all_goals cases h
  all_goals simp

/-- Counterexample for C5: a run requesting the undefined action boom prints
the message and terminates with completion status zero, not a non-zero
status. -/
theorem unknown_action_exit_status_counterexample :
    (main { action := some "boom" } envNoVcs).outcome = Outcome.exited 0 ∧
      Event.print "The requested action boom is not defined."
        ∈ (main { action := some "boom" } envNoVcs).trace :=
  ⟨rfl, by decide⟩

/-- C5 amended: when the requested action name is not defined in the
configuration, or the selected action configuration lacks the type field, the
run ends before any file, version-store or version-control mutation with a
human-readable message — but with completion status zero (sys.exit(0)), not a
non-zero status. -/
theorem unknown_action_exits_zero (args : Args) (env : Env) (config : Config)
    (cv : Version)
    (hv : args.version = false) (hi : args.init = false)
    (hany : (truthy args.part || truthy args.set_part || truthy args.action) = true)
    (hrs : (truthy args.set_part && args.reset_on_set
        && decide ((splitOnStr (args.set_part.getD "") ",").length > 1)) = false)
    (hc : env.configResult = Except.ok config)
    (hfe : (!args.simulate && config.files.isEmpty) = false)
    (hvf : Version.from_file env.versionStore config.version = Except.ok cv)
    (htr : truthy (resolveAction args).1 = true)
    (hmiss : List.lookup ((resolveAction args).1.getD "") config.actions = none
      ∨ ∃ d, List.lookup ((resolveAction args).1.getD "") config.actions = some d
          ∧ List.lookup "type" d = none) :
    (main args env).outcome = Outcome.exited 0 ∧
      noEffects (main args env).trace ∧
      (Event.print ("The requested action " ++ (resolveAction args).1.getD ""
          ++ " is not defined.") ∈ (main args env).trace
        ∨ Event.print "The action configuration is missing the \x27type\x27 field."
            ∈ (main args env).trace) := by
  rw [main_reaches_action args env config cv hv hi hany hrs hc hfe hvf]
  have hstep : actionStep config (resolveAction args).1 (resolveAction args).2 cv.copy
      = Except.error
        (if List.lookup ((resolveAction args).1.getD "") config.actions = none then
          ([Event.print ("The requested action " ++ (resolveAction args).1.getD ""
            ++ " is not defined.")], Outcome.exited 0)
        else
          ([Event.print "The action configuration is missing the \x27type\x27 field."],
            Outcome.exited 0)) := by
    unfold actionStep
    rw [if_pos htr]
    rcases hmiss with hnone | ⟨d, hsome, hty⟩
    · simp [hnone]
    · simp [hsome, hty]
  rw [mainTail, hstep]
  rcases hmiss with hnone | ⟨d, hsome, hty⟩
  · rw [if_pos hnone]
    refine ⟨rfl, ?_, Or.inl ?_⟩
    · exact noEffects_append (noEffects_append (noEffects_of_onlyPrints
        (onlyPrints_ite_print _ _)) (noEffects_cons rfl noEffects_nil))
        (noEffects_cons rfl noEffects_nil)
    · exact List.mem_append_right _ (List.mem_cons_self _ _)
  · rw [if_neg (by simp [hsome])]
    refine ⟨rfl, ?_, Or.inr ?_⟩
    · exact noEffects_append (noEffects_append (noEffects_of_onlyPrints
        (onlyPrints_ite_print _ _)) (noEffects_cons rfl noEffects_nil))
        (noEffects_cons rfl noEffects_nil)
    · exact List.mem_append_right _ (List.mem_cons_self _ _)

end Punch

namespace Punch

/-- The version loaded from the fixture store. -/
def verCur : Version := ⟨[⟨"major", .int 1⟩, ⟨"minor", .int 2⟩]⟩

/-- Witness for the amended C5 at the concrete run requesting action boom. -/
theorem unknown_action_exits_zero_witness :
    (main { action := some "boom" } envNoVcs).outcome = Outcome.exited 0 ∧
      noEffects (main { action := some "boom" } envNoVcs).trace ∧
      (Event.print ("The requested action "
          ++ (resolveAction { action := some "boom" }).1.getD ""
          ++ " is not defined.") ∈ (main { action := some "boom" } envNoVcs).trace
        ∨ Event.print "The action configuration is missing the \x27type\x27 field."
            ∈ (main { action := some "boom" } envNoVcs).trace) :=
  unknown_action_exits_zero { action := some "boom" } envNoVcs cfgNoVcs verCur
    rfl rfl rfl rfl rfl rfl rfl rfl (Or.inl rfl)

end Punch

namespace Punch

/-- C6: supplying reset-on-set together with a set-part option naming more
than one comma-separated part is fatal: the run consists of exactly the
validation message and completion status one, before any read of the version
store or any mutation of files, version store or repository. -/
theorem reset_on_set_multi_part_fatal (args : Args) (env : Env)
    (hv : args.version = false) (hi : args.init = false)
    (hsp : truthy args.set_part = true) (hro : args.reset_on_set = true)
    (hlen : (splitOnStr (args.set_part.getD "") ",").length > 1) :
    main args env
      = ⟨[Event.print "If you specify --reset-on-set you may set only one value"],
          Outcome.exited 1⟩ := by
  unfold main
  rw [if_neg (by simp [hv])]
  have hcond : (truthy args.set_part && args.reset_on_set
      && decide ((splitOnStr (args.set_part.getD "") ",").length > 1)) = true := by
    rw [hsp, hro]
    simp [hlen]
  have hany : (truthy args.part || truthy args.set_part || truthy args.action)
      = true := by
    rw [hsp]
    simp
  cases hsim : args.simulate with
  | true =>
      simp only [hsim, eq_self_iff_true, if_true, hi, Bool.false_eq_true, if_false,
        hany, Bool.not_true, hcond]
  | false =>
      simp only [hsim, Bool.false_eq_true, if_false, hi, hany, Bool.not_true,
        hcond, eq_self_iff_true, if_true]

/-- Witness for C6 at a concrete run setting two parts with reset-on-set. -/
theorem reset_on_set_multi_part_fatal_witness :
    main { set_part := some "major=2,minor=3", reset_on_set := true } envNoVcs
      = ⟨[Event.print "If you specify --reset-on-set you may set only one value"],
          Outcome.exited 1⟩ :=
  reset_on_set_multi_part_fatal
    { set_part := some "major=2,minor=3", reset_on_set := true }
    envNoVcs rfl rfl rfl rfl (by decide)

end Punch

namespace Punch

/-- A trace without any read of the version store. -/
def neverReadsStore (t : List Event) : Prop := ∀ p, Event.readVersionStore p ∉ t

lemma not_read_mem_prints {t : List Event} (h : onlyPrints t) (p : String) :
    Event.readVersionStore p ∉ t := by
  intro hm
  have := h _ hm
  cases this

/-- C9: with an empty configured file list, a non-simulated run is fatal with
the message about missing files, exits with status one, and never reads the
version store nor applies any action; a simulated run accepts the empty list,
reads the version store and never ends with the fatal status one. -/
theorem empty_file_list_behavior (args : Args) (env : Env) (config : Config)
    (hv : args.version = false) (hi : args.init = false)
    (hany : (truthy args.part || truthy args.set_part || truthy args.action) = true)
    (hrs : (truthy args.set_part && args.reset_on_set
        && decide ((splitOnStr (args.set_part.getD "") ",").length > 1)) = false)
    (hc : env.configResult = Except.ok config)
    (hfiles : config.files = []) :
    (args.simulate = false →
      main args env = ⟨(if args.verbose = true then
          [Event.print ("## Punch version " ++ punchVersionString)] else [])
        ++ [Event.print "You didn\x27t configure any file"], Outcome.exited 1⟩
      ∧ neverReadsStore (main args env).trace) ∧
    (args.simulate = true →
      Event.readVersionStore args.version_file ∈ (main args env).trace ∧
      (main args env).outcome ≠ Outcome.exited 1) := by
  constructor
  · intro hsim
    have heq : main args env = ⟨(if args.verbose = true then
        [Event.print ("## Punch version " ++ punchVersionString)] else [])
        ++ [Event.print "You didn\x27t configure any file"], Outcome.exited 1⟩ := by
      unfold main
      rw [if_neg (by simp [hv])]
      simp only [hsim, Bool.false_eq_true, if_false, hi, hany, Bool.not_true,
        hrs, hc, hfiles, Bool.not_false, Bool.true_and, List.isEmpty_nil,
        eq_self_iff_true, if_true]
    refine ⟨heq, ?_⟩
    rw [heq]
    intro p
    exact not_read_mem_prints
      (onlyPrints_append (onlyPrints_ite_print _ _) (onlyPrints_singleton _)) p
  · intro hsim
    unfold main
    rw [if_neg (by simp [hv])]
    simp only [hsim, eq_self_iff_true, if_true, hi, Bool.false_eq_true, if_false,
      hany, Bool.not_true, hrs, hc, Bool.false_and]
    cases hvf : Version.from_file env.versionStore config.version with
    | error msg =>
        constructor
        · exact List.mem_append_right _ (List.mem_cons_self _ _)
        · intro hcon
          cases hcon
    | ok cv =>
        dsimp only
        split
        · next e heq2 =>
            constructor
            · exact List.mem_append_left _
                (List.mem_append_right _ (List.mem_cons_self _ _))
            · rcases actionStep_error_outcome heq2 with h0 | ⟨m, hm⟩
              · rw [h0]
                intro hcon
                simp at hcon
              · rw [hm]
                intro hcon
                cases hcon
        · next av heq2 =>
            constructor
            · exact List.mem_append_left _ (List.mem_append_left _
                (List.mem_append_left _
                  (List.mem_append_right _ (List.mem_cons_self _ _))))
            · intro hcon
              cases hcon

end Punch

namespace Punch

/-- Fixture configuration with an empty file list. -/
def cfgEmpty : Config := ⟨tmplMM, [], ["major", "minor"], stdActions, none⟩

/-- Fixture environment whose configuration declares no files. -/
def envEmpty : Env :=
  ⟨Except.ok cfgEmpty, stdStore, stdContents, true, true, false, false, false,
    false, false⟩

/-- Witness for C9: the concrete non-simulated empty-file run is exactly the
fatal message with status one and never reads the store, while the simulated
run reads the store and does not exit with status one. -/
theorem empty_file_list_behavior_witness :
    (main { part := some "major" } envEmpty
        = ⟨(if ({ part := some "major" } : Args).verbose = true then
            [Event.print ("## Punch version " ++ punchVersionString)] else [])
          ++ [Event.print "You didn\x27t configure any file"], Outcome.exited 1⟩
      ∧ neverReadsStore (main { part := some "major" } envEmpty).trace) ∧
    (Event.readVersionStore "punch_version.py"
        ∈ (main { part := some "major", simulate := true } envEmpty).trace ∧
      (main { part := some "major", simulate := true } envEmpty).outcome
        ≠ Outcome.exited 1) :=
  ⟨(empty_file_list_behavior { part := some "major" } envEmpty cfgEmpty
      rfl rfl rfl rfl rfl rfl).1 rfl,
   (empty_file_list_behavior { part := some "major", simulate := true } envEmpty
      cfgEmpty rfl rfl rfl rfl rfl rfl).2 rfl⟩

end Punch

namespace Punch

/-- Whether an event applies an action. -/
def Event.isApply : Event → Bool
  | .applyAction _ _ => true
  | _ => false

lemma apply_not_mem_of_onlyPrints {t : List Event} (h : onlyPrints t)
    {n : String} {o : Option String} : Event.applyAction n o ∉ t := by
  intro hm
  have := h _ hm
  cases this

lemma apply_not_mem_updateFilesLoop {env : Env} {cur new : List (String × String)}
    {files : List FileConfig} {n : String} {o : Option String} :
    Event.applyAction n o ∉ updateFilesLoop env cur new files := by
  intro hm
  obtain ⟨_, _, h⟩ := mem_updateFilesLoop hm
  rcases h with h | h <;> cases h

lemma apply_not_mem_mutationPhase {env : Env} {vfp : String}
    {files : List FileConfig} {newv : Version} {cur new : List (String × String)}
    {vcsConf : Option VCSConfiguration} {n : String} {o : Option String} :
    Event.applyAction n o ∉ (mutationPhase env vfp files newv cur new vcsConf).1 := by
  intro hm
  cases vcsConf with
  | none =>
      simp only [mutationPhase] at hm
      rcases List.mem_append.mp hm with h | h
      · exact apply_not_mem_updateFilesLoop h
      · rcases List.mem_cons.mp h with h | h
        · cases h
        · exact absurd h (List.not_mem_nil _)
  | some vc =>
      simp only [mutationPhase] at hm
      by_cases hn : vc.name = "git" ∨ vc.name = "git-flow"
      · rw [if_pos hn] at hm
        cases hri : env.repoInitFails with
        | true => simp [hri] at hm
        | false =>
            simp only [hri, Bool.false_eq_true, if_false] at hm
            cases hps : env.preStartFails with
            | true => simp [hps] at hm
            | false =>
                simp only [hps, Bool.false_eq_true, if_false] at hm
                cases hst : env.startFails with
                | true => simp [hst] at hm
                | false =>
                    simp only [hst, Bool.false_eq_true, if_false] at hm
                    have hbase : Event.applyAction n o
                        ∉ Event.vcsPreStartRelease :: Event.vcsStartRelease ::
                          updateFilesLoop env cur new files
                          ++ [Event.writeVersionStore vfp newv,
                              Event.vcsFinishRelease] := by
                      intro hb
                      rcases List.mem_cons.mp hb with h | h
                      · cases h
                      · rcases List.mem_cons.mp h with h | h
                        · cases h
                        · rcases List.mem_append.mp h with h | h
                          · exact apply_not_mem_updateFilesLoop h
                          · rcases List.mem_cons.mp h with h | h
                            · cases h
                            · rcases List.mem_cons.mp h with h | h
                              · cases h
                              · exact absurd h (List.not_mem_nil _)
                    cases hfin : env.finishFails with
                    | true =>
                        simp only [hfin, eq_self_iff_true, if_true] at hm
                        exact hbase hm
                    | false =>
                        cases hpf : env.postFinishFails with
                        | true =>
                            simp only [hfin, hpf, Bool.false_eq_true, if_false,
                              eq_self_iff_true, if_true] at hm
                            rcases List.mem_append.mp hm with h | h
                            · exact hbase h
                            · rcases List.mem_cons.mp h with h | h
                              · cases h
                              · exact absurd h (List.not_mem_nil _)
                        | false =>
                            simp only [hfin, hpf, Bool.false_eq_true, if_false] at hm
                            rcases List.mem_append.mp hm with h | h
                            · exact hbase h
                            · rcases List.mem_cons.mp h with h | h
                              · cases h
                              · exact absurd h (List.not_mem_nil _)
      · rw [if_neg hn] at hm
        simp at hm

end Punch

namespace Punch

/-- C10: when both a part argument and a set-part argument are supplied, the
set-part option wins: the action resolved by the driver is punch:set with the
raw set-part option string, the applied-action event in the trace is
punch:set with that option string, and no punch:increase action is ever
applied in the run. -/
theorem set_part_overrides_part (args : Args) (env : Env) (config : Config)
    (cv : Version) (actEvs : List Event) (nv : Version)
    (hp : truthy args.part = true) (hsp : truthy args.set_part = true)
    (hv : args.version = false) (hi : args.init = false)
    (hrs : (truthy args.set_part && args.reset_on_set
        && decide ((splitOnStr (args.set_part.getD "") ",").length > 1)) = false)
    (hc : env.configResult = Except.ok config)
    (hfe : (!args.simulate && config.files.isEmpty) = false)
    (hvf : Version.from_file env.versionStore config.version = Except.ok cv)
    (hact : actionStep config (some "punch:set") args.set_part cv.copy
      = Except.ok (actEvs, nv)) :
    resolveAction args = (some "punch:set", args.set_part) ∧
      Event.applyAction "punch:set" args.set_part ∈ (main args env).trace ∧
      ∀ o, Event.applyAction "punch:increase" o ∉ (main args env).trace := by
  have hres : resolveAction args = (some "punch:set", args.set_part) := by
    unfold resolveAction
    rw [hsp]
    simp
  have hany : (truthy args.part || truthy args.set_part || truthy args.action)
      = true := by
    rw [hp]
    simp
  have hevs : actEvs = [Event.applyAction "punch:set" args.set_part] := by
    rcases actionStep_ok_events hact with ⟨hf, _, _⟩ | ⟨_, he⟩
    · cases hf
    · exact he
  rw [main_reaches_action args env config cv hv hi hany hrs hc hfe hvf]
  rw [mainTail, hres]
  dsimp only
  rw [hact, hevs]
  refine ⟨rfl, ?_, ?_⟩
  · exact List.mem_append_left _ (List.mem_append_left _
      (List.mem_append_right _ (List.mem_cons_self _ _)))
  · intro o hm
    rcases List.mem_append.mp hm with hm | hm
    · rcases List.mem_append.mp hm with hm | hm
      · rcases List.mem_append.mp hm with hm | hm
        · rcases List.mem_append.mp hm with hm | hm
          · exact apply_not_mem_of_onlyPrints (onlyPrints_ite_print _ _) hm
          · rcases List.mem_cons.mp hm with h | h
            · cases h
            · exact absurd h (List.not_mem_nil _)
        · rcases List.mem_cons.mp hm with h | h
          · simp at h
          · exact absurd h (List.not_mem_nil _)
      · revert hm
        split
        · intro hm
          exact apply_not_mem_of_onlyPrints
            (onlyPrints_verboseSummary _ _ _ _ _) hm
        · intro hm
          exact absurd hm (List.not_mem_nil _)
    · revert hm
      split
      · intro hm
        exact apply_not_mem_mutationPhase hm
      · intro hm
        exact absurd hm (List.not_mem_nil _)

end Punch

namespace Punch

/-- The version produced by the set fixture run. -/
def verSet : Version := ⟨[⟨"major", .int 1⟩, ⟨"minor", .int 7⟩]⟩

/-- Witness for C10 at a concrete run supplying both part and set-part. -/
theorem set_part_overrides_part_witness :
    resolveAction { part := some "major", set_part := some "minor=7" }
        = (some "punch:set", some "minor=7") ∧
      Event.applyAction "punch:set" (some "minor=7")
        ∈ (main { part := some "major", set_part := some "minor=7" } envNoVcs).trace ∧
      ∀ o, Event.applyAction "punch:increase" o
        ∉ (main { part := some "major", set_part := some "minor=7" } envNoVcs).trace :=
  set_part_overrides_part
    { part := some "major", set_part := some "minor=7" } envNoVcs cfgNoVcs
    verCur [Event.applyAction "punch:set" (some "minor=7")] verSet
    rfl rfl rfl rfl rfl rfl rfl rfl rfl

end Punch

namespace Punch

lemma Version.copy_eq (v : Version) : v.copy = v := by
  cases v with
  | mk l => exact congrArg Version.mk (List.map_id l)

lemma trace_sections (X Y : List Event) (config : Config) (cur new : Version)
    (r : Replacer) (vc : Option VCSConfiguration) :
    ∃ t₁ t₂, X ++ verboseSummary config cur new r vc ++ Y
      = t₁ ++ Event.print "\n* Current version" :: (showVersionParts cur.values
          ++ (Event.print "\n* New version"
            :: (showVersionParts new.values ++ t₂))) := by
  refine ⟨X, ([Event.print "\n* Global version updates"]
      ++ showVersionUpdates (r.run_all_serializers cur.as_dict new.as_dict)
      ++ [Event.print "\nConfigured files"]
      ++ config.files.bind (fileSummarySection cur.as_dict new.as_dict)
      ++ vcsSummarySection vc) ++ Y, ?_⟩
  simp [verboseSummary, List.append_assoc]

/-- C7: the action is applied to a copy of the loaded version and the copy
preserves the loaded part values, so the pre-action version stays available
unchanged for diffing: the verbose change summary renders the current section
from the originally loaded part values and the new section from the action's
result, side by side. -/
theorem current_version_available_for_diff (args : Args) (env : Env)
    (config : Config) (cv : Version) (actEvs : List Event) (nv : Version)
    (hv : args.version = false) (hi : args.init = false)
    (hany : (truthy args.part || truthy args.set_part || truthy args.action) = true)
    (hrs : (truthy args.set_part && args.reset_on_set
        && decide ((splitOnStr (args.set_part.getD "") ",").length > 1)) = false)
    (hc : env.configResult = Except.ok config)
    (hfe : (!args.simulate && config.files.isEmpty) = false)
    (hvf : Version.from_file env.versionStore config.version = Except.ok cv)
    (hact : actionStep config (resolveAction args).1 (resolveAction args).2 cv.copy
      = Except.ok (actEvs, nv))
    (hvb : (args.simulate || args.verbose) = true) :
    cv.copy = cv ∧
      ∃ t₁ t₂, (main args env).trace
        = t₁ ++ Event.print "\n* Current version" :: (showVersionParts cv.values
            ++ (Event.print "\n* New version"
              :: (showVersionParts nv.values ++ t₂))) := by
  refine ⟨Version.copy_eq cv, ?_⟩
  rw [main_reaches_action args env config cv hv hi hany hrs hc hfe hvf]
  rw [mainTail]
  dsimp only
  rw [hact]
  simp only [hvb, eq_self_iff_true, if_true]
  exact trace_sections _ _ _ _ _ _ _

/-- Witness for C7 at a concrete simulated increase run: the copy equals the
loaded version and the summary shows the loaded values as current next to the
increased values as new. -/
theorem current_version_available_for_diff_witness :
    verCur.copy = verCur ∧
      ∃ t₁ t₂, (main { part := some "major", simulate := true } envNoVcs).trace
        = t₁ ++ Event.print "\n* Current version" :: (showVersionParts verCur.values
            ++ (Event.print "\n* New version"
              :: (showVersionParts verNew.values ++ t₂))) :=
  current_version_available_for_diff
    { part := some "major", simulate := true } envNoVcs cfgNoVcs verCur
    [Event.applyAction "punch:increase" (some "part=major")] verNew
    rfl rfl rfl rfl rfl rfl rfl rfl rfl

end Punch
